import Mathlib

/-!
Verification of the archodex-frontend canvas interaction core.

This file embeds, as Lean definitions, the parts of the repository that the
claims concern:

* `ELKEdge` (src/unnamed/part_001): edge rendering, path construction from a
  routed ELK section, and the label y-correction
  (`calculateClosestPathMidpoint`).
* `QueryGraph.tsx`: the module-level drag/click gesture handler
  (`dragClickHandler`), the hovered-edge highlight computation of the
  `edgesArray` memo (`highlight`), and the `onNodesChange` selection bridge.
* `ResourceNode` (src/unnamed/part_000): `selectResourceIssues`.

JavaScript numbers are modelled by `ℚ` where the code only adds, subtracts,
compares and takes absolute values, and by `ℝ` where the code takes square
roots (the gesture classifier).  A JavaScript number that can also be
`undefined` or `Infinity` is modelled by the inductive `JSNum`.  JavaScript
objects used as string-keyed maps are modelled as functions
`String → Option _`; `undefined` field access is `Option`.
-/

/-- A 2-d point with rational coordinates, as used by the ELK geometry. -/
structure Point where
  x : ℚ
  y : ℚ
deriving DecidableEq, Repr

/-- The routed section of an edge, as produced by the external ELK layout
engine: a start point, optional bend points, and an end point
(`ElkEdgeSection` in src/unnamed/part_001). -/
structure ElkEdgeSection where
  startPoint : Point
  bendPoints : Option (List Point)
  endPoint : Point
deriving DecidableEq, Repr

/-- The label hint of an edge (`ELKEdgeData.label`): every field may be
absent. -/
structure ELKLabel where
  text : Option String
  x : Option ℚ
  y : Option ℚ
  width : Option ℚ
deriving DecidableEq, Repr

/-- The value of a JavaScript numeric expression that may be `undefined` or
`Infinity`: `calculateClosestPathMidpoint` can return either. -/
inductive JSNum where
  | undef : JSNum
  | inf : JSNum
  | num (q : ℚ) : JSNum
deriving DecidableEq, Repr

/-- JavaScript falsiness of an optional number: `!v` is true exactly when the
value is `undefined` or `0` (the code never produces `NaN` here). -/
def jsFalsy (v : Option ℚ) : Prop :=
  v = none ∨ v = some 0

instance (v : Option ℚ) : Decidable (jsFalsy v) := by
  unfold jsFalsy; infer_instance

/-- One step of the scan in `calculateClosestPathMidpoint`: a consecutive
vertex pair covers the label when its x-range contains `label.x` or
`label.x + label.width` (part_001 lines 100-103). -/
def pairCovers (lx w : ℚ) (s e : Point) : Prop :=
  (s.x ≤ lx ∧ e.x ≥ lx) ∨ (s.x ≤ lx + w ∧ e.x ≥ lx + w)

instance (lx w : ℚ) (s e : Point) : Decidable (pairCovers lx w s e) := by
  unfold pairCovers; infer_instance

/-- `Math.abs` on a rational. -/
def jsAbs (a : ℚ) : ℚ :=
  if a < 0 then -a else a

/-- Is candidate `q` strictly closer to `ly` than the current running minimum?
`none` models the `Infinity` initialisation, at infinite distance from any
label y (part_001 lines 104, 108). -/
def closerThan (ly q : ℚ) : Option ℚ → Bool
  | none => true
  | some c => jsAbs (q - ly) < jsAbs (c - ly)

/-- The scan loop of `calculateClosestPathMidpoint` over consecutive vertex
pairs, threading the running minimum (`none` = `Infinity`).  For a covering
pair the start y is considered first, then the end y, each replacing the
running minimum only when strictly closer (part_001 lines 96-112). -/
def closestLoop (lx ly w : ℚ) : List (Point × Point) → Option ℚ → Option ℚ
  | [], acc => acc
  | (s, e) :: rest, acc =>
    let acc :=
      if pairCovers lx w s e then
        let acc1 := if closerThan ly s.y acc then some s.y else acc
        if closerThan ly e.y acc1 then some e.y else acc1
      else acc
    closestLoop lx ly w rest acc

/-- Embedding of `calculateClosestPathMidpoint` (part_001 lines 87-115).
If `label.x`, `label.y` or `label.width` is falsy (absent or zero), returns
`label.y` unchanged; otherwise scans consecutive vertex pairs and returns the
covering-pair endpoint y closest to `label.y`, or `Infinity` when no pair
covers the label. -/
def calculateClosestPathMidpoint (label : ELKLabel) (points : List Point) : JSNum :=
  if jsFalsy label.x ∨ jsFalsy label.y ∨ jsFalsy label.width then
    match label.y with
    | none => JSNum.undef
    | some q => JSNum.num q
  else
    let lx := label.x.getD 0
    let ly := label.y.getD 0
    let w := label.width.getD 0
    match closestLoop lx ly w (points.zip points.tail) none with
    | none => JSNum.inf
    | some q => JSNum.num q

/-- `ISSUE_BADGE_SIZE` from QueryGraph.tsx line 28. -/
def ISSUE_BADGE_SIZE : ℚ := 26

/-- The polyline built by the `segments` loop of the `ELKEdge` component
(part_001 lines 52-62): a moveto at the laterally shifted start point, then a
lineto per bend point (in order), then a lineto at the end point.  Mirrors the
imperative pushes: the initial singleton, a fold appending each bend point,
then the end point. -/
def buildPath (s : ElkEdgeSection) (lateralOffset : ℚ) : List Point :=
  let segments := [Point.mk (s.startPoint.x - lateralOffset) s.startPoint.y]
  let segments := (s.bendPoints.getD []).foldl (fun acc p => acc ++ [p]) segments
  segments ++ [s.endPoint]

/-- A resource event carried by an edge (`ResourceEvent`); only the fields the
embedded code reads. -/
structure ResourceEvent where
  eventType : String
deriving DecidableEq, Repr

/-- `ELKEdgeData` (part_001 lines 5-12). -/
structure ELKEdgeData where
  originalSourceId : String
  originalTargetId : String
  label : ELKLabel
  /-- the `section` field of the source (a Lean keyword, hence renamed) -/
  sec : Option ElkEdgeSection
  events : List ResourceEvent
  eventChainHovered : Option Bool
deriving DecidableEq, Repr

/-- The react-flow edge object as the embedded code uses it: its id and its
optional `data`. -/
structure GraphEdge where
  id : String
  data : Option ELKEdgeData
deriving DecidableEq, Repr

/-- What the `ELKEdge` component renders when it renders anything: the stroked
polyline and the label placement. -/
structure EdgeRenderOut where
  path : List Point
  labelX : Option ℚ
  labelY : JSNum
  labelText : Option String
deriving DecidableEq, Repr

/-- Embedding of the `ELKEdge` component body (part_001 lines 41-82): `none`
models returning `null`.  Renders nothing when `data` is absent or when
`data.section` is absent; otherwise builds the path with a lateral offset of
half the issue-badge size and corrects the label y over the unshifted points. -/
def renderELKEdge (data : Option ELKEdgeData) : Option EdgeRenderOut :=
  match data with
  | none => none
  | some d =>
    match d.sec with
    | none => none
    | some sec =>
      let path := buildPath sec (ISSUE_BADGE_SIZE / 2)
      let points := sec.startPoint :: ((sec.bendPoints.getD []) ++ [sec.endPoint])
      some
        { path := path
          labelX := d.label.x
          labelY := calculateClosestPathMidpoint d.label points
          labelText := d.label.text }

/-- `Links` from useQueryData: the one-hop event-chain neighbors of an edge. -/
structure Links where
  preceding : List String
  following : List String
deriving DecidableEq, Repr

/-- The event-chain link table, a string-keyed JavaScript object. -/
def EventChainLinks : Type := String → Option Links

/-- The edge map, a string-keyed JavaScript object of react-flow edges. -/
def EdgeMap : Type := String → Option GraphEdge

/-- Assignment `m[k] = v` on a string-keyed JavaScript object. -/
def updateMap (m : EdgeMap) (k : String) (v : GraphEdge) : EdgeMap :=
  fun k2 => if k2 = k then some v else m k2

/-- The body of the inner loop of the highlight computation (QueryGraph.tsx
lines 152-159): look up the id in the original `edges`; when the edge exists
and carries data, overwrite the accumulator's entry with a shallow copy whose
data has `eventChainHovered = true`, otherwise leave the accumulator alone. -/
def applyHover (edges : EdgeMap) (acc : EdgeMap) (k : String) : EdgeMap :=
  match edges k with
  | none => acc
  | some edge =>
    match edge.data with
    | none => acc
    | some d =>
      updateMap acc k { edge with data := some { d with eventChainHovered := some true } }

/-- One iteration of the outer loop of the highlight computation
(QueryGraph.tsx lines 141-160): skip a hovered id whose link table entry is
absent, otherwise mark each id of `[edgeId, ...preceding, ...following]`. -/
def hoverOuterStep (edges : EdgeMap) (links : EventChainLinks) (acc : EdgeMap) (edgeId : String) : EdgeMap :=
  match links edgeId with
  | none => acc
  | some edgeEventChainLinks =>
    let eventChainEdgeIds := edgeId :: (edgeEventChainLinks.preceding ++ edgeEventChainLinks.following)
    eventChainEdgeIds.foldl (applyHover edges) acc

/-- Embedding of the hovered-edge highlight computation of the `edgesArray`
memo (QueryGraph.tsx lines 135-162), up to the final `Object.values`: if the
hovered set is empty the edge map is returned as is; otherwise, starting from
a copy of `edges`, the outer loop runs over the hovered ids in set iteration
order. -/
def highlight (hoveredEdges : List String) (edges : EdgeMap) (links : EventChainLinks) : EdgeMap :=
  if hoveredEdges.isEmpty then edges
  else hoveredEdges.foldl (hoverOuterStep edges links) edges

/-- The hover-marked copy of the edge stored under `k`, when `edges k` exists
and carries data: specification-side description of the single assignment the
highlight loop performs for a surviving id. -/
def markedValue (edges : EdgeMap) (k : String) : Option GraphEdge :=
  match edges k with
  | none => none
  | some edge =>
    match edge.data with
    | none => none
    | some d => some { edge with data := some { d with eventChainHovered := some true } }

/-- The ids the highlight loop visits: the union (as a concatenated list) of
`[h, ...preceding, ...following]` over the hovered ids whose link table entry
exists. -/
def markList (links : EventChainLinks) : List String → List String
  | [] => []
  | h :: rest =>
    match links h with
    | none => markList links rest
    | some l => (h :: (l.preceding ++ l.following)) ++ markList links rest

/-- The event types the `dragClickHandler` switch distinguishes
(QueryGraph.tsx lines 59-63); `other` stands for any other event type. -/
inductive EvType where
  | mousedown
  | mousemove
  | mouseup
  | other
deriving DecidableEq, Repr

/-- A mouse event as `dragClickHandler` reads it: its type and client
coordinates. -/
structure MouseEv where
  type : EvType
  clientX : ℝ
  clientY : ℝ

/-- The module-level mutable state of the drag/click gesture handler
(QueryGraph.tsx lines 52-53): `lastMouseCoords` and `distanceMoved`.  In the
source these are module-scope `let` bindings, evaluated once per process. -/
structure GestureState where
  lastMouseCoords : Option (ℝ × ℝ)
  distanceMoved : ℝ

/-- Embedding of `dragClickHandler` (QueryGraph.tsx lines 54-97) as a state
transition.  `elementAt` models `document.elementFromPoint`, the input event is
optional (the handler returns on a missing event), and the second component of
the result is the synthesized click: the element it targets and the client
coordinates it carries, or `none` when no click is dispatched. -/
noncomputable def dragClickHandler (elementAt : ℝ × ℝ → Option String) (event : Option MouseEv)
    (s : GestureState) : GestureState × Option (String × ℝ × ℝ) :=
  match event with
  | none => (s, none)
  | some e =>
    if e.type = EvType.mousedown then
      ({ lastMouseCoords := some (e.clientX, e.clientY), distanceMoved := 0 }, none)
    else if e.type = EvType.mousemove ∨ e.type = EvType.mouseup then
      match s.lastMouseCoords with
      | none => (s, none)
      | some last =>
        let dx := e.clientX - last.1
        let dy := e.clientY - last.2
        let distanceMoved1 := s.distanceMoved + Real.sqrt (dx * dx + dy * dy)
        if e.type = EvType.mouseup then
          ({ lastMouseCoords := none, distanceMoved := 0 },
            if distanceMoved1 < 5 then
              (elementAt (e.clientX, e.clientY)).map (fun el => (el, e.clientX, e.clientY))
            else none)
        else
          ({ lastMouseCoords := some (e.clientX, e.clientY), distanceMoved := distanceMoved1 }, none)
    else (s, none)

/-- A sequence of handler invocations from a given state, collecting the
synthesized clicks in order. -/
noncomputable def runGesture (elementAt : ℝ × ℝ → Option String) :
    List (Option MouseEv) → GestureState → GestureState × List (String × ℝ × ℝ)
  | [], s => (s, [])
  | ev :: rest, s =>
    let step := dragClickHandler elementAt ev s
    let tail := runGesture elementAt rest step.1
    (tail.1, step.2.toList ++ tail.2)

/-- The gesture-classifier state a given mounted canvas observes.  In the
source, `lastMouseCoords` and `distanceMoved` are bindings at module scope of
QueryGraph.tsx, so every mounted `QueryGraph` instance closes over the same
two variables: the state a canvas observes is the module state itself,
independent of the canvas. -/
def canvasClassifierState (_canvas : ℕ) (moduleState : GestureState) : GestureState :=
  moduleState

/-- Processing a pointer event that originated on a given canvas: every
canvas wires the same module-level `dragClickHandler` to its
`onMoveStart`/`onMove`/`onMoveEnd` props (QueryGraph.tsx lines 255-257), so
the canvas identity does not enter the transition. -/
noncomputable def dispatchCanvasEvent (_canvas : ℕ) (elementAt : ℝ × ℝ → Option String)
    (event : Option MouseEv) (moduleState : GestureState) :
    GestureState × Option (String × ℝ × ℝ) :=
  dragClickHandler elementAt event moduleState

/-- A concrete hit-testing environment: an element is found at every point. -/
def elemAtBase : ℝ × ℝ → Option String := fun _ => some "target"

/-- One segment of a resource id path. -/
structure ResourceSegment where
  type : String
  id : String
deriving DecidableEq, Repr

/-- A resource id: the ordered segments from root ancestor to the resource. -/
abbrev ResourceId : Type := List ResourceSegment

/-- Modelled from the spec: `typeIdFromResourceId` lives in `lib/utils`, which
is not part of the provided sources; per the spec's data model, the terminal
segment's `type` classifies the resource for telemetry. -/
def typeIdFromResourceId (r : ResourceId) : Option String :=
  (List.getLast? r).map (fun seg => seg.type)

/-- The node data the `onNodesChange` handler reads: `nodes[id].data.id`. -/
structure NodeData where
  id : ResourceId
deriving DecidableEq, Repr

/-- A react-flow node change as filtered by the handler: its change type
(the handler keeps only `"select"` changes), the node id, and the new
selected flag. -/
structure NodeChange where
  type : String
  id : String
  selected : Bool
deriving DecidableEq, Repr

/-- The actions dispatched to the external `useQueryData` reducer that the
embedded handlers emit. -/
inductive QAction where
  | SelectResource (resourceId : String)
  | DeselectResource (resourceId : String)
  | SelectIssue (issueId : String)
deriving DecidableEq, Repr

/-- One outbound emission of a handler: either a dispatched reducer action or
a posthog telemetry capture carrying an event name and the reported resource
type. -/
inductive Emission where
  | action (a : QAction)
  | telemetry (name : String) (resourceType : Option String)
deriving DecidableEq, Repr

/-- The loop body of `onNodesChange` over the `"select"`-filtered changes
(QueryGraph.tsx lines 217-229), in source order: for each change, the posthog
capture is emitted first and the reducer dispatch second.  `nodes[change.id]`
on an id absent from the node map throws in JavaScript (reading `.data` of
`undefined`); `none` models that exception. -/
def processNodeSelectChanges (nodes : String → Option NodeData) :
    List NodeChange → Option (List Emission)
  | [] => some []
  | change :: rest =>
    match nodes change.id with
    | none => none
    | some nd =>
      let ems :=
        if change.selected then
          [Emission.telemetry "graph_resource_selected" (typeIdFromResourceId nd.id),
           Emission.action (QAction.SelectResource change.id)]
        else
          [Emission.telemetry "graph_resource_deselected" (typeIdFromResourceId nd.id),
           Emission.action (QAction.DeselectResource change.id)]
      (processNodeSelectChanges nodes rest).map (fun tail => ems ++ tail)

/-- Embedding of the `onNodesChange` prop (QueryGraph.tsx lines 216-230):
filter the batch to `"select"` changes, then loop. -/
def onNodesChange (nodes : String → Option NodeData) (changes : List NodeChange) :
    Option (List Emission) :=
  processNodeSelectChanges nodes (changes.filter (fun c => c.type == "select"))

/-- The reducer action carried by an emission, if any. -/
def emissionAction : Emission → Option QAction
  | Emission.action a => some a
  | Emission.telemetry _ _ => none

/-- A navigation request issued through `useNavigate`. -/
structure NavCall where
  target : String
  replace : Bool
deriving DecidableEq, Repr

/-- JavaScript `String.prototype.endsWith` on character lists. -/
def endsWith (s pat : List Char) : Bool :=
  List.isSuffixOf pat s

/-- The pathname tail `"/events"` tested by `selectResourceIssues`. -/
def eventsRoute : List Char := "/events".toList

/-- The pathname tail `"/issues"` tested by `selectResourceIssues`. -/
def issuesRoute : List Char := "/issues".toList

/-- The output of one invocation of `selectResourceIssues`: the telemetry
capture, the navigation performed (if any), and the dispatched actions in
order. -/
structure SelectIssuesResult where
  captureName : String
  nav : Option NavCall
  dispatches : List QAction
deriving DecidableEq, Repr

/-- Embedding of `selectResourceIssues` (src/unnamed/part_000 lines 174-189):
capture telemetry; if the pathname ends in `/events` navigate to the sibling
issues view, otherwise if it does not already end in `/issues` navigate to the
child issues view, otherwise do not navigate; then dispatch one `SelectIssue`
per id of `resourceIssueIds`, in order. -/
def selectResourceIssues (pathname : List Char) (resourceIssueIds : List String) :
    SelectIssuesResult :=
  { captureName := "resource_node_issue_badge_clicked"
    nav :=
      if endsWith pathname eventsRoute then
        some { target := "../issues", replace := true }
      else if !(endsWith pathname issuesRoute) then
        some { target := "./issues", replace := true }
      else none
    dispatches := resourceIssueIds.map (fun issueId => QAction.SelectIssue issueId) }

/-! Concrete inputs used by the claim theorems, counterexamples and
witnesses. -/

/-- The vertex list of the spec's label-correction example:
`[(0,0),(10,0),(10,10)]`. -/
def examplePoints : List Point := [⟨0, 0⟩, ⟨10, 0⟩, ⟨10, 10⟩]

/-- The label of the spec's example: `{x:10, width:0, y:5}`. -/
def exampleLabelW0 : ELKLabel := { text := none, x := some 10, y := some 5, width := some 0 }

/-- The same label with a truthy (nonzero) width. -/
def exampleLabelW1 : ELKLabel := { text := none, x := some 10, y := some 5, width := some 1 }

/-- Edge data with every optional part absent: no section, no label fields. -/
def dataPlain : ELKEdgeData :=
  { originalSourceId := "s", originalTargetId := "t"
    label := { text := none, x := none, y := none, width := none }
    sec := none, events := [], eventChainHovered := none }

/-- An edge present in the map but with no `data`. -/
def edgeNoData : GraphEdge := { id := "e", data := none }

/-- An edge map holding only `edgeNoData` under `"e"`. -/
def edgesNoData : EdgeMap := fun k => if k = "e" then some edgeNoData else none

/-- A link table with an (empty) entry for `"e"` only. -/
def linksE : EventChainLinks := fun k => if k = "e" then some { preceding := [], following := [] } else none

/-- The empty link table. -/
def linksNone : EventChainLinks := fun _ => none

/-- An edge map with data-carrying edges `"a"` and `"b"`. -/
def edgesAB : EdgeMap := fun k =>
  if k = "a" then some { id := "a", data := some dataPlain }
  else if k = "b" then some { id := "b", data := some dataPlain }
  else none

/-- A link table where `"b"` follows `"a"`. -/
def linksAB : EventChainLinks :=
  fun k => if k = "a" then some { preceding := [], following := ["b"] } else none

/-- A node map holding one node `"A"` whose resource id has terminal type
`"T"`. -/
def nodesA : String → Option NodeData :=
  fun k => if k = "A" then some { id := [{ type := "T", id := "a" }] } else none

/-- The selection-change batch `[{id:"A", selected:true}]`. -/
def batchSelectA : List NodeChange := [{ type := "select", id := "A", selected := true }]

/-- The selection-change batch `[{id:"A", selected:false}]`. -/
def batchDeselectA : List NodeChange := [{ type := "select", id := "A", selected := false }]

/-- Auxiliary: a left fold pushing singletons is concatenation. -/
theorem foldl_push_eq_append {α : Type} (l init : List α) :
    l.foldl (fun acc p => acc ++ [p]) init = init ++ l := by
  induction l generalizing init with
  | nil => simp
  | cons p rest ih => simp [List.foldl_cons, ih]

/-- Auxiliary: pointwise effect of one inner-loop iteration of the highlight
computation. -/
theorem applyHover_apply (edges acc : EdgeMap) (i k : String) :
    applyHover edges acc i k =
      if k = i ∧ (markedValue edges i).isSome then markedValue edges i else acc k := by
  unfold applyHover markedValue updateMap
  cases hi : edges i with
  | none => simp
  | some edge =>
    cases hd : edge.data with
    | none => simp [hd]
    | some d => by_cases hk : k = i <;> simp [hd, hk]

/-- Auxiliary: pointwise effect of the inner loop over a list of chain ids. -/
theorem foldl_applyHover (edges : EdgeMap) (ids : List String) (acc : EdgeMap) (k : String) :
    (ids.foldl (applyHover edges) acc) k =
      if k ∈ ids ∧ (markedValue edges k).isSome then markedValue edges k else acc k := by
  induction ids generalizing acc with
  | nil => simp
  | cons i rest ih =>
    rw [List.foldl_cons, ih]
    by_cases hm : (markedValue edges k).isSome
    · by_cases hr : k ∈ rest
      · simp [hr, hm]
      · rw [applyHover_apply]
        by_cases hk : k = i
        · subst hk
          simp [hr, hm]
        · simp [hr, hm, hk]
    · rw [applyHover_apply]
      by_cases hk : k = i
      · subst hk
        simp [hm]
      · simp [hm, hk]

/-- Auxiliary: pointwise effect of the outer loop over the hovered ids. -/
theorem foldl_hoverOuterStep (edges : EdgeMap) (links : EventChainLinks)
    (hovered : List String) (acc : EdgeMap) (k : String) :
    (hovered.foldl (hoverOuterStep edges links) acc) k =
      if k ∈ markList links hovered ∧ (markedValue edges k).isSome then markedValue edges k
      else acc k := by
  induction hovered generalizing acc with
  | nil => simp [markList]
  | cons h rest ih =>
    rw [List.foldl_cons, ih]
    cases hl : links h with
    | none => simp [markList, hl, hoverOuterStep]
    | some l =>
      unfold hoverOuterStep
      rw [hl]
      simp only
      rw [foldl_applyHover]
      simp only [markList, hl, List.mem_cons, List.mem_append]
      split_ifs <;> tauto

/-- Auxiliary: no pathname ends in both `/events` and `/issues`: the two
suffixes have equal length but differ. -/
theorem not_endsWith_events_and_issues (s : List Char)
    (h1 : endsWith s eventsRoute = true)
    (h2 : endsWith s issuesRoute = true) : False := by
  rw [endsWith, List.isSuffixOf_iff_suffix] at h1 h2
  obtain ⟨t1, e1⟩ := h1
  obtain ⟨t2, e2⟩ := h2
  have heq : t1 ++ eventsRoute = t2 ++ issuesRoute := e1.trans e2.symm
  have hlen : eventsRoute.length = issuesRoute.length := by decide
  have hsuf := (List.append_inj' heq hlen).2
  exact absurd hsuf (by decide)

/-- C9: activating the issue badge dispatches one SelectIssue per issue id,
in the node's order; the navigation is a no-op exactly when the pathname
already ends in the issues view, and otherwise targets an issues route. -/
theorem selectResourceIssues_spec :
    (∀ (pathname : List Char) (ids : List String),
      (selectResourceIssues pathname ids).dispatches = ids.map QAction.SelectIssue) ∧
    (∀ (pathname : List Char) (ids : List String),
      ((selectResourceIssues pathname ids).nav = none ↔
        endsWith pathname issuesRoute = true)) ∧
    (∀ (pathname : List Char) (ids : List String) (n : NavCall),
      (selectResourceIssues pathname ids).nav = some n →
        n.target = "../issues" ∨ n.target = "./issues") := by
  refine ⟨fun pathname ids => rfl, fun pathname ids => ?_, fun pathname ids n h => ?_⟩
  · cases he : endsWith pathname eventsRoute with
    | true =>
      have hi : endsWith pathname issuesRoute = false := by
        cases hi : endsWith pathname issuesRoute with
        | false => rfl
        | true => exact (not_endsWith_events_and_issues pathname he hi).elim
      simp [selectResourceIssues, he, hi]
    | false =>
      cases hi : endsWith pathname issuesRoute <;> simp [selectResourceIssues, he, hi]
  · cases he : endsWith pathname eventsRoute with
    | true =>
      simp only [selectResourceIssues, he, if_true] at h
      cases h
      left
      rfl
    | false =>
      cases hi : endsWith pathname issuesRoute with
      | true => simp [selectResourceIssues, he, hi] at h
      | false =>
        simp only [selectResourceIssues, he, hi] at h
        simp at h
        rw [← h]
        right
        rfl

/-- Witness for selectResourceIssues_spec: a pathname ending in the events
view with two issue ids. -/
theorem selectResourceIssues_spec_witness :
    (selectResourceIssues ("/a/events".toList) ["i1", "i2"]).dispatches
        = [QAction.SelectIssue "i1", QAction.SelectIssue "i2"] ∧
      (selectResourceIssues ("/a/events".toList) ["i1", "i2"]).nav ≠ none := by
  constructor
  · exact (selectResourceIssues_spec.1 ("/a/events".toList) ["i1", "i2"]).trans rfl
  · intro hnone
    have := (selectResourceIssues_spec.2.1 ("/a/events".toList) ["i1", "i2"]).mp hnone
    exact absurd this (by decide)

/-- Auxiliary: happy-path characterization of the select-change loop: the
emission list is, per change in order, the telemetry capture followed by the
reducer dispatch. -/
theorem processNodeSelectChanges_eq (nodes : String → Option NodeData) :
    ∀ (changes : List NodeChange) (out : List Emission),
      processNodeSelectChanges nodes changes = some out →
      out = (changes.map (fun c =>
        [Emission.telemetry
            (if c.selected then "graph_resource_selected" else "graph_resource_deselected")
            ((nodes c.id).bind (fun nd => typeIdFromResourceId nd.id)),
         Emission.action
            (if c.selected then QAction.SelectResource c.id
             else QAction.DeselectResource c.id)])).flatten := by
  intro changes
  induction changes with
  | nil =>
    intro out h
    simp [processNodeSelectChanges] at h
    simp [← h]
  | cons c rest ih =>
    intro out h
    unfold processNodeSelectChanges at h
    cases hn : nodes c.id with
    | none => rw [hn] at h; exact absurd h (by simp)
    | some nd =>
      rw [hn] at h
      simp only [Option.map_eq_some'] at h
      obtain ⟨tail, htail, hout⟩ := h
      rw [← hout, ih tail htail]
      cases hc : c.selected <;> simp [hn, hc]

/-- Auxiliary: the action projection of one telemetry-action pair. -/
theorem filterMap_emissionAction_pair (t : String) (rt : Option String) (a : QAction)
    (rest : List Emission) :
    (Emission.telemetry t rt :: Emission.action a :: rest).filterMap emissionAction
      = a :: rest.filterMap emissionAction := by
  simp [List.filterMap_cons, emissionAction]

/-- C3 amended: in a node selection-change batch, for each entry with change
type select the bridge emits the telemetry event (carrying the resource's
terminal type) first and then the reducer action (SelectResource for a
transition to selected, DeselectResource for a transition to deselected);
exactly one action per transition, nothing for entries not in the batch; the
batch pair select-then-deselect of "A" dispatches exactly SelectResource "A"
then DeselectResource "A", no duplicates. -/
theorem onNodesChange_spec :
    (∀ (nodes : String → Option NodeData) (changes : List NodeChange) (out : List Emission),
      onNodesChange nodes changes = some out →
      out = ((changes.filter (fun c => c.type == "select")).map (fun c =>
        [Emission.telemetry
            (if c.selected then "graph_resource_selected" else "graph_resource_deselected")
            ((nodes c.id).bind (fun nd => typeIdFromResourceId nd.id)),
         Emission.action
            (if c.selected then QAction.SelectResource c.id
             else QAction.DeselectResource c.id)])).flatten ∧
      out.filterMap emissionAction = ((changes.filter (fun c => c.type == "select")).map
        (fun c => if c.selected then QAction.SelectResource c.id
          else QAction.DeselectResource c.id))) ∧
    ((onNodesChange nodesA batchSelectA).getD [] ++
        (onNodesChange nodesA batchDeselectA).getD []).filterMap emissionAction
      = [QAction.SelectResource "A", QAction.DeselectResource "A"] := by
  constructor
  · intro nodes changes out h
    have hflat := processNodeSelectChanges_eq nodes _ out h
    refine ⟨hflat, ?_⟩
    rw [hflat]
    generalize changes.filter (fun c => c.type == "select") = cs
    induction cs with
    | nil => simp
    | cons c rest ihc =>
      simp only [List.map_cons, List.flatten_cons, List.map]
      rw [List.cons_append, List.cons_append, List.nil_append,
        filterMap_emissionAction_pair]
      rw [ihc]
  · decide

/-- Witness for onNodesChange_spec: the single-select batch on node "A". -/
theorem onNodesChange_spec_witness :
    ([Emission.telemetry "graph_resource_selected" (some "T"),
      Emission.action (QAction.SelectResource "A")] : List Emission).filterMap emissionAction
      = ((batchSelectA.filter (fun c => c.type == "select")).map
          (fun c => if c.selected then QAction.SelectResource c.id
            else QAction.DeselectResource c.id)) :=
  (onNodesChange_spec.1 nodesA batchSelectA
    [Emission.telemetry "graph_resource_selected" (some "T"),
     Emission.action (QAction.SelectResource "A")] (by decide)).2

/-- C3 counterexample: the select transition of "A" emits the telemetry
capture first and the SelectResource action second, so the emission sequence
is not the claimed action-then-telemetry order. -/
theorem onNodesChange_order_counterexample :
    onNodesChange nodesA batchSelectA =
      some [Emission.telemetry "graph_resource_selected" (some "T"),
            Emission.action (QAction.SelectResource "A")] ∧
      onNodesChange nodesA batchSelectA ≠
        some [Emission.action (QAction.SelectResource "A"),
              Emission.telemetry "graph_resource_selected" (some "T")] := by
  exact ⟨by decide, by decide⟩

/-- Auxiliary: the handler on a mousedown unconditionally restarts the
gesture. -/
theorem dragClickHandler_mousedown_eq (elementAt : ℝ × ℝ → Option String) (e : MouseEv)
    (s : GestureState) (ht : e.type = EvType.mousedown) :
    dragClickHandler elementAt (some e) s =
      ({ lastMouseCoords := some (e.clientX, e.clientY), distanceMoved := 0 }, none) := by
  obtain ⟨ty, cx, cy⟩ := e
  cases ht
  rfl

/-- Auxiliary: the handler on a mousemove during a live gesture accumulates
the segment length and tracks the position. -/
theorem dragClickHandler_mousemove_eq (elementAt : ℝ × ℝ → Option String) (e : MouseEv)
    (s : GestureState) (p : ℝ × ℝ) (hl : s.lastMouseCoords = some p)
    (ht : e.type = EvType.mousemove) :
    dragClickHandler elementAt (some e) s =
      ({ lastMouseCoords := some (e.clientX, e.clientY),
         distanceMoved := s.distanceMoved + Real.sqrt ((e.clientX - p.1) * (e.clientX - p.1) +
           (e.clientY - p.2) * (e.clientY - p.2)) }, none) := by
  obtain ⟨ty, cx, cy⟩ := e
  obtain ⟨lm, dm⟩ := s
  cases ht
  cases hl
  rfl

/-- Auxiliary: the handler on a mouseup during a live gesture resets the state
and synthesizes a click below the 5-pixel threshold. -/
theorem dragClickHandler_mouseup_eq (elementAt : ℝ × ℝ → Option String) (e : MouseEv)
    (s : GestureState) (p : ℝ × ℝ) (hl : s.lastMouseCoords = some p)
    (ht : e.type = EvType.mouseup) :
    dragClickHandler elementAt (some e) s =
      ({ lastMouseCoords := none, distanceMoved := 0 },
        if s.distanceMoved + Real.sqrt ((e.clientX - p.1) * (e.clientX - p.1) +
            (e.clientY - p.2) * (e.clientY - p.2)) < 5 then
          (elementAt (e.clientX, e.clientY)).map (fun el => (el, e.clientX, e.clientY))
        else none) := by
  obtain ⟨ty, cx, cy⟩ := e
  obtain ⟨lm, dm⟩ := s
  cases ht
  cases hl
  rfl

/-- Auxiliary: the square root of 25. -/
theorem sqrt_twentyfive : Real.sqrt 25 = 5 := by
  have h : (25:ℝ) = 5 ^ 2 := by norm_num
  rw [h, Real.sqrt_sq (by norm_num : (0:ℝ) ≤ 5)]

/-- C4: on a mouseup during a live gesture the handler always clears the
stored position and resets the accumulated distance to 0, and it synthesizes a
click, targeted at the element found at the release position and carrying the
release coordinates, exactly when the accumulated distance including the final
segment is strictly below 5 and an element is found there; the concrete
start-(0,0)-end-(3,4) gesture (distance exactly 5) synthesizes no click, while
the zero-distance gesture start, move, move, end at (0,0) does. -/
theorem dragClickHandler_end_spec :
    (∀ (elementAt : ℝ × ℝ → Option String) (e : MouseEv) (s : GestureState) (p : ℝ × ℝ),
      s.lastMouseCoords = some p → e.type = EvType.mouseup →
      (dragClickHandler elementAt (some e) s).1.lastMouseCoords = none ∧
      (dragClickHandler elementAt (some e) s).1.distanceMoved = 0 ∧
      ((dragClickHandler elementAt (some e) s).2 ≠ none ↔
        (s.distanceMoved + Real.sqrt ((e.clientX - p.1) * (e.clientX - p.1) +
            (e.clientY - p.2) * (e.clientY - p.2)) < 5 ∧
          (elementAt (e.clientX, e.clientY)).isSome = true)) ∧
      (∀ el x y, (dragClickHandler elementAt (some e) s).2 = some (el, x, y) →
        x = e.clientX ∧ y = e.clientY ∧ elementAt (e.clientX, e.clientY) = some el)) ∧
    (∀ elementAt : ℝ × ℝ → Option String,
      (runGesture elementAt
        [some { type := EvType.mousedown, clientX := 0, clientY := 0 },
         some { type := EvType.mouseup, clientX := 3, clientY := 4 }]
        { lastMouseCoords := none, distanceMoved := 0 }).2 = []) ∧
    (∀ elementAt : ℝ × ℝ → Option String, (elementAt (0, 0)).isSome = true →
      (runGesture elementAt
        [some { type := EvType.mousedown, clientX := 0, clientY := 0 },
         some { type := EvType.mousemove, clientX := 0, clientY := 0 },
         some { type := EvType.mousemove, clientX := 0, clientY := 0 },
         some { type := EvType.mouseup, clientX := 0, clientY := 0 }]
        { lastMouseCoords := none, distanceMoved := 0 }).2 ≠ []) := by
  refine ⟨?_, ?_, ?_⟩
  · intro elementAt e s p hl ht
    rw [dragClickHandler_mouseup_eq elementAt e s p hl ht]
    refine ⟨rfl, rfl, ?_, ?_⟩
    · by_cases hd : s.distanceMoved + Real.sqrt ((e.clientX - p.1) * (e.clientX - p.1) +
          (e.clientY - p.2) * (e.clientY - p.2)) < 5
      · simp [hd, Option.map_eq_none', Option.isSome_iff_ne_none]
      · simp [hd]
    · intro el x y h
      by_cases hd : s.distanceMoved + Real.sqrt ((e.clientX - p.1) * (e.clientX - p.1) +
          (e.clientY - p.2) * (e.clientY - p.2)) < 5
      · simp only [hd, if_true] at h
        rw [Option.map_eq_some'] at h
        obtain ⟨v, hv, heq⟩ := h
        have h3 : v = el ∧ e.clientX = x ∧ e.clientY = y := by
          simpa [Prod.ext_iff] using heq
        exact ⟨h3.2.1.symm, h3.2.2.symm, by rw [hv, h3.1]⟩
      · simp [hd] at h
  · intro elementAt
    have h1 : dragClickHandler elementAt
        (some { type := EvType.mousedown, clientX := 0, clientY := 0 })
        { lastMouseCoords := none, distanceMoved := 0 } =
        ({ lastMouseCoords := some (0, 0), distanceMoved := 0 }, none) :=
      dragClickHandler_mousedown_eq elementAt _ _ rfl
    have h2 : dragClickHandler elementAt
        (some { type := EvType.mouseup, clientX := 3, clientY := 4 })
        { lastMouseCoords := some ((0:ℝ), (0:ℝ)), distanceMoved := 0 } =
        ({ lastMouseCoords := none, distanceMoved := 0 }, none) := by
      rw [dragClickHandler_mouseup_eq elementAt _ _ ((0:ℝ), (0:ℝ)) rfl rfl]
      rw [if_neg]
      norm_num [sqrt_twentyfive]
    simp [runGesture, h1, h2, -Prod.mk_zero_zero]
  · intro elementAt h
    rw [Option.isSome_iff_exists] at h
    obtain ⟨el, hel⟩ := h
    have h1 : dragClickHandler elementAt
        (some { type := EvType.mousedown, clientX := 0, clientY := 0 })
        { lastMouseCoords := none, distanceMoved := 0 } =
        ({ lastMouseCoords := some (0, 0), distanceMoved := 0 }, none) :=
      dragClickHandler_mousedown_eq elementAt _ _ rfl
    have hm : dragClickHandler elementAt
        (some { type := EvType.mousemove, clientX := 0, clientY := 0 })
        { lastMouseCoords := some ((0:ℝ), (0:ℝ)), distanceMoved := 0 } =
        ({ lastMouseCoords := some ((0:ℝ), (0:ℝ)), distanceMoved := 0 }, none) := by
      rw [dragClickHandler_mousemove_eq elementAt _ _ ((0:ℝ), (0:ℝ)) rfl rfl]
      norm_num [Real.sqrt_zero]
    have hu : dragClickHandler elementAt
        (some { type := EvType.mouseup, clientX := 0, clientY := 0 })
        { lastMouseCoords := some ((0:ℝ), (0:ℝ)), distanceMoved := 0 } =
        ({ lastMouseCoords := none, distanceMoved := 0 }, some (el, 0, 0)) := by
      rw [dragClickHandler_mouseup_eq elementAt _ _ ((0:ℝ), (0:ℝ)) rfl rfl]
      rw [if_pos (by norm_num [Real.sqrt_zero])]
      rw [hel]
      rfl
    simp [runGesture, h1, hm, hu, -Prod.mk_zero_zero]

/-- Witness for dragClickHandler_end_spec: the concrete (0,0)-(3,4) mouseup
and the zero-distance gesture under a total hit-test environment. -/
theorem dragClickHandler_end_spec_witness :
    (dragClickHandler elemAtBase (some { type := EvType.mouseup, clientX := 3, clientY := 4 })
        { lastMouseCoords := some (0, 0), distanceMoved := 0 }).1.lastMouseCoords = none ∧
      (runGesture elemAtBase
        [some { type := EvType.mousedown, clientX := 0, clientY := 0 },
         some { type := EvType.mousemove, clientX := 0, clientY := 0 },
         some { type := EvType.mousemove, clientX := 0, clientY := 0 },
         some { type := EvType.mouseup, clientX := 0, clientY := 0 }]
        { lastMouseCoords := none, distanceMoved := 0 }).2 ≠ [] :=
  ⟨(dragClickHandler_end_spec.1 elemAtBase _ _ (0, 0) rfl rfl).1,
    dragClickHandler_end_spec.2.2 elemAtBase rfl⟩

/-- C2 counterexample: the gesture-classifier state is not per canvas.  A
mousedown processed for canvas 1 changes the classifier state canvas 2
observes, because both canvases share the module-level bindings. -/
theorem gesture_state_not_per_canvas :
    (canvasClassifierState 2 ((dispatchCanvasEvent 1 elemAtBase
        (some { type := EvType.mousedown, clientX := 0, clientY := 0 })
        { lastMouseCoords := none, distanceMoved := 0 }).1)).lastMouseCoords ≠
      (canvasClassifierState 2
        { lastMouseCoords := none, distanceMoved := 0 }).lastMouseCoords := by
  rw [canvasClassifierState, canvasClassifierState, dispatchCanvasEvent,
    dragClickHandler_mousedown_eq elemAtBase _ _ rfl]
  simp

/-- C2 amended: the gesture-classifier state lives at module scope and is
shared process-wide: every mounted canvas observes the same state, the
transition is independent of the canvas an event originated on, and a
mousedown processed for canvas 1 makes a same-position mouseup processed for
canvas 2 synthesize a click. -/
theorem gesture_state_shared :
    (∀ (c c2 : ℕ) (s : GestureState), canvasClassifierState c s = canvasClassifierState c2 s) ∧
    (∀ (c c2 : ℕ) (elementAt : ℝ × ℝ → Option String) (ev : Option MouseEv) (s : GestureState),
      dispatchCanvasEvent c elementAt ev s = dispatchCanvasEvent c2 elementAt ev s) ∧
    (∀ elementAt : ℝ × ℝ → Option String, (elementAt (0, 0)).isSome = true →
      (dispatchCanvasEvent 2 elementAt (some { type := EvType.mouseup, clientX := 0, clientY := 0 })
        ((dispatchCanvasEvent 1 elementAt
          (some { type := EvType.mousedown, clientX := 0, clientY := 0 })
          { lastMouseCoords := none, distanceMoved := 0 }).1)).2 ≠ none) := by
  refine ⟨fun _ _ _ => rfl, fun _ _ _ _ _ => rfl, ?_⟩
  intro elementAt h
  rw [Option.isSome_iff_exists] at h
  obtain ⟨el, hel⟩ := h
  have h1 : dragClickHandler elementAt
      (some { type := EvType.mousedown, clientX := 0, clientY := 0 })
      { lastMouseCoords := none, distanceMoved := 0 } =
      ({ lastMouseCoords := some (0, 0), distanceMoved := 0 }, none) :=
    dragClickHandler_mousedown_eq elementAt _ _ rfl
  rw [dispatchCanvasEvent, dispatchCanvasEvent, h1,
    dragClickHandler_mouseup_eq elementAt _ _ ((0:ℝ), (0:ℝ)) rfl rfl]
  rw [if_pos (by norm_num [Real.sqrt_zero])]
  rw [hel]
  simp

/-- Witness for gesture_state_shared: the cross-canvas click under a total
hit-test environment. -/
theorem gesture_state_shared_witness :
    (dispatchCanvasEvent 2 elemAtBase
        (some { type := EvType.mouseup, clientX := 0, clientY := 0 })
        ((dispatchCanvasEvent 1 elemAtBase
          (some { type := EvType.mousedown, clientX := 0, clientY := 0 })
          { lastMouseCoords := none, distanceMoved := 0 }).1)).2 ≠ none :=
  gesture_state_shared.2.2 elemAtBase rfl

/-- C6: applying the highlight computation to an empty hovered set returns the
edge map itself, for every edge map and link table. -/
theorem highlight_empty_identity (edges : EdgeMap) (links : EventChainLinks) :
    highlight [] edges links = edges := rfl

/-- C7: for every routed section and lateral offset, the built polyline is the
laterally shifted start point, then the bend points in order, then the end
point — only the first vertex is changed, and only in x; and the offset the
renderer passes, half the issue-badge size, equals 13. -/
theorem buildPath_spec :
    (∀ (s : ElkEdgeSection) (lateralOffset : ℚ),
      buildPath s lateralOffset =
        Point.mk (s.startPoint.x - lateralOffset) s.startPoint.y ::
          (s.bendPoints.getD [] ++ [s.endPoint])) ∧
    ISSUE_BADGE_SIZE / 2 = 13 := by
  constructor
  · intro s lateralOffset
    simp [buildPath, foldl_push_eq_append]
  · norm_num [ISSUE_BADGE_SIZE]

/-- C8: an edge whose data is present but whose section is absent renders
nothing (the component returns null), rather than raising. -/
theorem renderELKEdge_no_section (d : ELKEdgeData) (h : d.sec = none) :
    renderELKEdge (some d) = none := by
  simp [renderELKEdge, h]

/-- Witness for renderELKEdge_no_section at concrete sectionless data. -/
theorem renderELKEdge_no_section_witness :
    dataPlain.sec = none ∧ renderELKEdge (some dataPlain) = none :=
  ⟨rfl, renderELKEdge_no_section dataPlain rfl⟩

/-- C10: a hovered edge id whose event-chain-link entry is absent marks
nothing, even though the edge itself is present in the edge map: the whole map
passes through unchanged. -/
theorem highlight_no_link_no_mark (edges : EdgeMap) (links : EventChainLinks)
    (edgeId : String) (e : GraphEdge) (_hedge : edges edgeId = some e)
    (hlink : links edgeId = none) :
    highlight [edgeId] edges links = edges := by
  simp [highlight, hoverOuterStep, hlink]

/-- Witness for highlight_no_link_no_mark at a concrete edge map. -/
theorem highlight_no_link_no_mark_witness :
    edgesNoData "e" = some edgeNoData ∧ linksNone "e" = none ∧
      highlight ["e"] edgesNoData linksNone = edgesNoData :=
  ⟨rfl, rfl, highlight_no_link_no_mark edgesNoData linksNone "e" edgeNoData rfl rfl⟩

/-- C1 counterexample: on the spec example, vertices [(0,0),(10,0),(10,10)]
and label with x = 10, width = 0, y = 5, the label-correction function
returns label.y = 5, not the claimed 0: width 0 is falsy in JavaScript, so
the incomplete-label guard fires before any scanning. -/
theorem calculateClosestPathMidpoint_example_counterexample :
    calculateClosestPathMidpoint exampleLabelW0 examplePoints = JSNum.num 5 ∧
      calculateClosestPathMidpoint exampleLabelW0 examplePoints ≠ JSNum.num 0 := by
  constructor
  · norm_num [calculateClosestPathMidpoint, exampleLabelW0, examplePoints, jsFalsy]
  · norm_num [calculateClosestPathMidpoint, exampleLabelW0, examplePoints, jsFalsy]

/-- C1 amended: with width 0 the falsiness guard fires and the function
returns label.y = 5 unchanged; with a truthy width (width 1, same x and y)
the scan runs and the deterministic tie-break returns 0, the first candidate
encountered in vertex order among the values at distance 5 from label.y. -/
theorem calculateClosestPathMidpoint_example :
    calculateClosestPathMidpoint exampleLabelW0 examplePoints = JSNum.num 5 ∧
      calculateClosestPathMidpoint exampleLabelW1 examplePoints = JSNum.num 0 := by
  constructor
  · norm_num [calculateClosestPathMidpoint, exampleLabelW0, examplePoints, jsFalsy]
  · norm_num [calculateClosestPathMidpoint, exampleLabelW1, examplePoints, jsFalsy,
      closestLoop, pairCovers, closerThan, jsAbs]
    simp

/-- C5 amended: for a non-empty hovered set, the highlight computation agrees
with the input edge map everywhere except at the ids of the one-hop union
(each hovered id with a link entry, together with its preceding and following
ids) whose edge is present in the map with data present: those entries are
replaced by a shallow copy with eventChainHovered = true.  Ids absent from
the map, dataless edges and stale link entries are skipped silently, and no
id outside the union is ever marked. -/
theorem highlight_spec (hovered : List String) (edges : EdgeMap) (links : EventChainLinks)
    (hne : hovered ≠ []) (k : String) :
    highlight hovered edges links k =
      if k ∈ markList links hovered ∧ (markedValue edges k).isSome then markedValue edges k
      else edges k := by
  unfold highlight
  rw [if_neg (by simpa using hne)]
  exact foldl_hoverOuterStep edges links hovered edges k

/-- Witness for highlight_spec: hovering "a", whose link entry lists "b" as
following, marks "b" in a concrete two-edge map. -/
theorem highlight_spec_witness :
    highlight ["a"] edgesAB linksAB "b" = markedValue edgesAB "b" ∧
      (markedValue edgesAB "b").isSome := by
  have h := highlight_spec ["a"] edgesAB linksAB (by simp) "b"
  refine ⟨?_, by decide⟩
  rw [h, if_pos ⟨by decide, by decide⟩]

/-- C5 counterexample: an id in the one-hop union that is present in the edge
map but whose data is absent is not replaced: the map passes through
unchanged, so the returned edge for "e" carries no data and in particular no
eventChainHovered = true. -/
theorem highlight_dataless_counterexample :
    highlight ["e"] edgesNoData linksE "e" = some edgeNoData ∧
      "e" ∈ markList linksE ["e"] ∧
      (highlight ["e"] edgesNoData linksE "e").bind GraphEdge.data = none := by
  refine ⟨by decide, by decide, by decide⟩
